import Mathlib

/-!
Verification of the decision and risk-state engine of the bot-bybit repository.

The Python source is shallowly embedded: floats are modelled as rationals (ℚ),
Python ints as Int/Nat, lists as Lean lists, and the mutable per-instance state
of each class is passed explicitly.  Each definition names the source function
it embeds.
-/

namespace BotBybit

/-- Python `max` on two floats, written with an explicit `if` so that concrete
instances evaluate by `simp`/`norm_num`. -/
def qmax (a b : ℚ) : ℚ := if a ≤ b then b else a

/-- Python `min` on two floats. -/
def qmin (a b : ℚ) : ℚ := if a ≤ b then a else b

/-- Python `abs` on a float. -/
def qabs (a : ℚ) : ℚ := if a < 0 then -a else a

/-- A candle, mirroring the dataclass `Kline` of bybit_api/types.py.
The field `open` is renamed `open_` because `open` is a Lean keyword. -/
structure Kline where
  open_time : Int
  close_time : Int
  open_ : ℚ
  high : ℚ
  low : ℚ
  close : ℚ
  volume : ℚ
  deriving DecidableEq

/-- Python slice semantics for `xs[-n:]`: the last `n` elements, except that
for `n = 0` Python evaluates `xs[-0:] = xs[0:]`, i.e. the whole list. -/
def pyLastN {α : Type} (n : ℕ) (xs : List α) : List α :=
  if n = 0 then xs else xs.drop (xs.length - n)

/-- The truncation step at the end of `BaseStrategy.add_kline`
(src/strategies/base.py lines 59-62): keep only the last `max_klines` entries
when the buffer exceeds that many. -/
def truncateBuf (maxKlines : ℕ) (xs : List Kline) : List Kline :=
  if maxKlines < xs.length then pyLastN maxKlines xs else xs

/-- `BaseStrategy.add_kline` (src/strategies/base.py lines 40-62): append on an
empty buffer; replace the last entry when `open_time` matches it; append when
strictly newer; silently drop when strictly older (early return, so no
truncation); in all non-drop cases truncate to the last `max_klines` entries. -/
def add_kline (maxKlines : ℕ) (klines : List Kline) (kline : Kline) : List Kline :=
  match klines.getLast? with
  | none => truncateBuf maxKlines (klines ++ [kline])
  | some last_kline =>
    if kline.open_time = last_kline.open_time then
      truncateBuf maxKlines (klines.dropLast ++ [kline])
    else if last_kline.open_time < kline.open_time then
      truncateBuf maxKlines (klines ++ [kline])
    else
      klines

/-- Strict time order between two candles: the first opened strictly earlier. -/
def klOlder (a b : Kline) : Prop := a.open_time < b.open_time

instance : IsTrans Kline klOlder := ⟨fun _ _ _ h h' => lt_trans h h'⟩

instance : DecidableRel klOlder := fun a b =>
  inferInstanceAs (Decidable (a.open_time < b.open_time))

/-- Buffer invariant of the spec: bounded size and strictly increasing
`open_time` values. -/
def BufferInv (maxKlines : ℕ) (klines : List Kline) : Prop :=
  klines.length ≤ maxKlines ∧ klines.Pairwise klOlder

/-- The spec-level "truncate from the front to at most `n` elements". -/
def lastN {α : Type} (n : ℕ) (xs : List α) : List α :=
  if xs.length ≤ n then xs else xs.drop (xs.length - n)

lemma truncateBuf_eq_lastN {maxK : ℕ} (hpos : 0 < maxK) (xs : List Kline) :
    truncateBuf maxK xs = lastN maxK xs := by
  unfold truncateBuf lastN pyLastN
  have hne : maxK ≠ 0 := by omega
  rcases Nat.lt_or_ge maxK xs.length with h | h
  · simp [h, Nat.not_le.mpr h, hne]
  · simp [Nat.not_lt.mpr h, h]

lemma truncateBuf_length {maxK : ℕ} (hpos : 0 < maxK) (xs : List Kline) :
    (truncateBuf maxK xs).length ≤ maxK := by
  unfold truncateBuf pyLastN
  have hne : maxK ≠ 0 := by omega
  rcases Nat.lt_or_ge maxK xs.length with h | h
  · simp [h, hne, List.length_drop]
    omega
  · simp [Nat.not_lt.mpr h, h]

lemma truncateBuf_sublist (maxK : ℕ) (xs : List Kline) :
    (truncateBuf maxK xs).Sublist xs := by
  unfold truncateBuf pyLastN
  split
  · split
    · exact List.Sublist.refl xs
    · exact List.drop_sublist _ xs
  · exact List.Sublist.refl xs

lemma truncateBuf_pairwise {maxK : ℕ} {xs : List Kline}
    (h : xs.Pairwise klOlder) : (truncateBuf maxK xs).Pairwise klOlder :=
  h.sublist (truncateBuf_sublist maxK xs)

lemma pairwise_dropLast_append {buf : List Kline} {last k : Kline}
    (hlast : buf.getLast? = some last) (hp : buf.Pairwise klOlder)
    (hk : ∀ x ∈ buf.dropLast, klOlder x k) :
    (buf.dropLast ++ [k]).Pairwise klOlder := by
  have hne : buf ≠ [] := by
    intro h; rw [h] at hlast; simp at hlast
  refine List.pairwise_append.mpr ⟨?_, List.pairwise_singleton _ _, ?_⟩
  · have hsub : buf.dropLast.Sublist buf := List.dropLast_sublist buf
    exact hp.sublist hsub
  · intro x hx y hy
    simp at hy
    subst hy
    exact hk x hx

lemma pairwise_older_of_mem {buf : List Kline} {last : Kline}
    (hlast : buf.getLast? = some last) (hp : buf.Pairwise klOlder) :
    ∀ x ∈ buf.dropLast, klOlder x last := by
  have hne : buf ≠ [] := by
    intro h; rw [h] at hlast; simp at hlast
  have hdecomp : buf.dropLast ++ [buf.getLast hne] = buf :=
    List.dropLast_append_getLast hne
  have hlast' : buf.getLast hne = last := by
    have := List.getLast?_eq_getLast buf hne
    rw [this] at hlast
    exact Option.some.inj hlast
  intro x hx
  have hp' : (buf.dropLast ++ [buf.getLast hne]).Pairwise klOlder := by
    rw [hdecomp]; exact hp
  have := (List.pairwise_append.mp hp').2.2 x hx (buf.getLast hne) (by simp)
  rwa [hlast'] at this

lemma mem_dropLast_or_getLast (x : Kline) {buf : List Kline} (hx : x ∈ buf)
    (hne : buf ≠ []) : x ∈ buf.dropLast ∨ x = buf.getLast hne := by
  have hdecomp : buf.dropLast ++ [buf.getLast hne] = buf :=
    List.dropLast_append_getLast hne
  rw [← hdecomp] at hx
  rcases List.mem_append.mp hx with h | h
  · exact Or.inl h
  · right; simpa using h

/-- A single `add_kline` call preserves the buffer invariant (positive capacity). -/
lemma add_kline_preserves {maxK : ℕ} (hpos : 0 < maxK) {buf : List Kline}
    (h : BufferInv maxK buf) (k : Kline) : BufferInv maxK (add_kline maxK buf k) := by
  obtain ⟨hlen, hp⟩ := h
  unfold add_kline
  cases hlast : buf.getLast? with
  | none =>
    have hbe : buf = [] := List.getLast?_eq_none_iff.mp hlast
    subst hbe
    refine ⟨truncateBuf_length hpos _, truncateBuf_pairwise ?_⟩
    simp
  | some last =>
    by_cases heq : k.open_time = last.open_time
    · simp only [heq, if_pos rfl]
      refine ⟨truncateBuf_length hpos _, truncateBuf_pairwise ?_⟩
      refine pairwise_dropLast_append hlast hp ?_
      intro x hx
      have := pairwise_older_of_mem hlast hp x hx
      unfold klOlder at this ⊢
      omega
    · by_cases hlt : last.open_time < k.open_time
      · simp only [if_neg heq, if_pos hlt]
        refine ⟨truncateBuf_length hpos _, truncateBuf_pairwise ?_⟩
        refine List.pairwise_append.mpr ⟨hp, List.pairwise_singleton _ _, ?_⟩
        intro x hx y hy
        simp at hy
        subst hy
        have hne : buf ≠ [] := by
          intro hb; rw [hb] at hlast; simp at hlast
        rcases mem_dropLast_or_getLast x hx hne with hx' | hx'
        · have := pairwise_older_of_mem hlast hp x hx'
          unfold klOlder at this ⊢
          omega
        · have hlast' : buf.getLast hne = last := by
            have := List.getLast?_eq_getLast buf hne
            rw [this] at hlast
            exact Option.some.inj hlast
          rw [hx', hlast']
          exact hlt
      · simp only [if_neg heq, if_neg hlt]
        exact ⟨hlen, hp⟩

/-- Configuration of `IFRStrategy` (src/strategies/ifr_rsi.py, dataclass
`IFRParams`).  Period fields are Python ints, always non-negative in this
program, modelled as ℕ; levels and multipliers are floats, modelled as ℚ. -/
structure IFRParams where
  rsi_period : ℕ
  oversold_level : ℚ
  overbought_level : ℚ
  volatility_period : ℕ
  atr_period : ℕ
  atr_lookback_period : ℕ
  atr_min_multiplier : ℚ
  atr_max_multiplier : ℚ
  deriving DecidableEq

/-- `IFRStrategy.get_max_klines` (src/strategies/ifr_rsi.py lines 48-55):
`max(max(rsi_period, atr_period, atr_lookback_period) * 3, 100)`. -/
def get_max_klines (cfg : IFRParams) : ℕ :=
  max (max (max cfg.rsi_period cfg.atr_period) cfg.atr_lookback_period * 3) 100

lemma get_max_klines_pos (cfg : IFRParams) : 0 < get_max_klines cfg := by
  unfold get_max_klines
  omega

/-- C3.  Starting from an empty buffer, any sequence of `add_kline` calls keeps
the buffer at or below `get_max_klines()` candles, with strictly increasing
`open_time` values, hence no two retained candles share an `open_time`. -/
theorem C3_buffer_invariant (cfg : IFRParams) (updates : List Kline) :
    (updates.foldl (add_kline (get_max_klines cfg)) []).length ≤ get_max_klines cfg ∧
    List.Chain' klOlder (updates.foldl (add_kline (get_max_klines cfg)) []) ∧
    (updates.foldl (add_kline (get_max_klines cfg)) []).Pairwise
      (fun a b => a.open_time ≠ b.open_time) := by
  have hpos := get_max_klines_pos cfg
  have key : ∀ (us : List Kline) (b : List Kline), BufferInv (get_max_klines cfg) b →
      BufferInv (get_max_klines cfg) (us.foldl (add_kline (get_max_klines cfg)) b) := by
    intro us
    induction us with
    | nil => intro b hb; exact hb
    | cons u us ih =>
      intro b hb
      exact ih _ (add_kline_preserves hpos hb u)
  have hinv := key updates [] ⟨by simp, List.Pairwise.nil⟩
  refine ⟨hinv.1, hinv.2.chain', hinv.2.imp ?_⟩
  intro a b hab
  exact ne_of_lt hab

/-- C2 (amended).  Case analysis of `add_kline` for a positive capacity: an
empty buffer gains exactly the new candle; an equal `open_time` replaces the
last entry and then truncates from the front to at most `maxK` entries (a
no-op whenever the buffer already fits); a strictly newer candle is appended
and then truncated the same way; a strictly older candle leaves the buffer
unchanged. -/
theorem C2_add_kline_cases (maxK : ℕ) (hpos : 0 < maxK) (buf : List Kline) (k : Kline) :
    (buf = [] → add_kline maxK buf k = [k]) ∧
    (∀ last, buf.getLast? = some last →
      (k.open_time = last.open_time →
        add_kline maxK buf k = lastN maxK (buf.dropLast ++ [k])) ∧
      (last.open_time < k.open_time →
        add_kline maxK buf k = lastN maxK (buf ++ [k])) ∧
      (k.open_time < last.open_time → add_kline maxK buf k = buf)) := by
  constructor
  · intro hbe
    subst hbe
    unfold add_kline truncateBuf pyLastN
    simp
    omega
  · intro last hlast
    have hne : buf ≠ [] := by
      intro hb; rw [hb] at hlast; simp at hlast
    refine ⟨?_, ?_, ?_⟩
    · intro heq
      unfold add_kline
      rw [hlast]
      simp only [heq, if_pos rfl]
      exact truncateBuf_eq_lastN hpos _
    · intro hlt
      unfold add_kline
      rw [hlast]
      have hne' : ¬ k.open_time = last.open_time := by omega
      simp only [if_neg hne', if_pos hlt]
      exact truncateBuf_eq_lastN hpos _
    · intro hgt
      unfold add_kline
      rw [hlast]
      have hne' : ¬ k.open_time = last.open_time := by omega
      have hnl : ¬ last.open_time < k.open_time := by omega
      simp only [if_neg hne', if_neg hnl]

/-- Sample candle with the given open time and flat prices, for witnesses. -/
def flatK (t : Int) (p : ℚ) : Kline :=
  { open_time := t, close_time := t + 300000, open_ := p, high := p, low := p,
    close := p, volume := 1 }

/-- Witness for C2: a concrete application of every case of the theorem. -/
theorem C2_add_kline_cases_witness :
    add_kline 2 [] (flatK 0 10) = [flatK 0 10] ∧
    add_kline 2 [flatK 0 10] (flatK 300000 11) =
      lastN 2 ([flatK 0 10] ++ [flatK 300000 11]) ∧
    add_kline 2 [flatK 0 10, flatK 300000 11] (flatK 300000 12) =
      lastN 2 ([flatK 0 10, flatK 300000 11].dropLast ++ [flatK 300000 12]) ∧
    add_kline 2 [flatK 0 10, flatK 300000 11] (flatK 150000 9) =
      [flatK 0 10, flatK 300000 11] := by
  refine ⟨?_, ?_, ?_, ?_⟩
  · exact (C2_add_kline_cases 2 (by norm_num) [] (flatK 0 10)).1 rfl
  · exact ((C2_add_kline_cases 2 (by norm_num) [flatK 0 10] (flatK 300000 11)).2
      (flatK 0 10) rfl).2.1 (by norm_num [flatK])
  · exact ((C2_add_kline_cases 2 (by norm_num) [flatK 0 10, flatK 300000 11]
      (flatK 300000 12)).2 (flatK 300000 11) rfl).1 (by norm_num [flatK])
  · exact ((C2_add_kline_cases 2 (by norm_num) [flatK 0 10, flatK 300000 11]
      (flatK 150000 9)).2 (flatK 300000 11) rfl).2.2 (by norm_num [flatK])

/-- Counterexample for C2 as frozen: on a buffer already over capacity
(capacity 1, two entries), a candle with the last entry's `open_time` is NOT
replaced purely in place — the code also truncates, dropping the older candle.
The claim's equal-`open_time` case predicts `[flatK 0 10, flatK 300000 12]`. -/
theorem C2_counterexample :
    (flatK 300000 12).open_time = (flatK 300000 11).open_time ∧
    add_kline 1 [flatK 0 10, flatK 300000 11] (flatK 300000 12) = [flatK 300000 12] ∧
    add_kline 1 [flatK 0 10, flatK 300000 11] (flatK 300000 12) ≠
      [flatK 0 10, flatK 300000 12] := by
  refine ⟨rfl, rfl, ?_⟩
  decide

/-- Position side, mirroring the `position_side` strings of
src/risk_management/trailing_stop.py. -/
inductive PosSide where
  | LONG
  | SHORT
  deriving DecidableEq

/-- Constructor arguments of `TrailingStop` (src/risk_management/trailing_stop.py
lines 30-38). -/
structure TSConfig where
  atr_multiplier : ℚ
  atr_period : ℕ
  deriving DecidableEq

/-- The dataclass `TrailingStopState` (src/risk_management/trailing_stop.py
lines 11-19). -/
structure TSState where
  is_active : Bool
  highest_price : ℚ
  lowest_price : ℚ
  current_stop : ℚ
  entry_price : ℚ
  position_side : PosSide
  deriving DecidableEq

/-- The true range of a candle given its predecessor, as computed row-wise in
`TrailingStop._calculate_atr`: `max(high - low, |high - prev_close|,
|low - prev_close|)`. -/
def trPair (prev cur : Kline) : ℚ :=
  qmax (cur.high - cur.low) (qmax (qabs (cur.high - prev.close)) (qabs (cur.low - prev.close)))

/-- `TrailingStop._calculate_atr` (src/risk_management/trailing_stop.py lines
89-109): 0 when fewer than `atr_period + 1` candles; otherwise the plain mean
of the true ranges of the last `atr_period` candles (the pandas `tail(period)`
drops the first row of the `period + 1`-row frame, whose true range has no
previous close).  The degenerate `atr_period = 0` call (pandas would yield the
mean of an empty frame, NaN, which likewise never moves the stop) is rendered
as 0 by the rational convention `x / 0 = 0`. -/
def ts_calculate_atr (atr_period : ℕ) (klines : List Kline) : ℚ :=
  if klines.length < atr_period + 1 then 0
  else
    let ks := klines.drop (klines.length - (atr_period + 1))
    let trs := (ks.zip ks.tail).map (fun p => trPair p.1 p.2)
    trs.sum / atr_period

/-- The initial stop of `TrailingStop.activate` (src/risk_management/
trailing_stop.py lines 42-51): `ATR × multiplier` on the adverse side of the
entry when enough history exists and the ATR is positive; otherwise the entry
price itself. -/
def ts_initial_stop (cfg : TSConfig) (entry_price : ℚ) (position_side : PosSide)
    (klines : List Kline) : ℚ :=
  if cfg.atr_period + 1 ≤ klines.length then
    if 0 < ts_calculate_atr cfg.atr_period klines then
      match position_side with
      | PosSide.LONG =>
          entry_price - ts_calculate_atr cfg.atr_period klines * cfg.atr_multiplier
      | PosSide.SHORT =>
          entry_price + ts_calculate_atr cfg.atr_period klines * cfg.atr_multiplier
    else entry_price
  else entry_price

/-- `TrailingStop.activate` (src/risk_management/trailing_stop.py lines 40-60):
a fresh active state with both extremes at the entry price. -/
def ts_activate (cfg : TSConfig) (entry_price : ℚ) (position_side : PosSide)
    (klines : List Kline) : TSState :=
  { is_active := true, highest_price := entry_price, lowest_price := entry_price,
    current_stop := ts_initial_stop cfg entry_price position_side klines,
    entry_price := entry_price, position_side := position_side }

/-- The state-mutation phase of `TrailingStop.update` (lines 129-154): update
the favorable extreme and possibly move the stop.  For LONG the stop moves only
upward; for SHORT it moves when it still equals the entry price (the
"first-set" test) or when the candidate is lower. -/
def ts_update_state (st : TSState) (current_price stop_distance : ℚ) : TSState :=
  match st.position_side with
  | PosSide.LONG =>
    if st.highest_price < current_price then
      if st.current_stop < current_price - stop_distance then
        { st with highest_price := current_price,
                  current_stop := current_price - stop_distance }
      else { st with highest_price := current_price }
    else st
  | PosSide.SHORT =>
    if current_price < st.lowest_price then
      if st.current_stop = st.entry_price ∨
          current_price + stop_distance < st.current_stop then
        { st with lowest_price := current_price,
                  current_stop := current_price + stop_distance }
      else { st with lowest_price := current_price }
    else st

/-- The breach test of `TrailingStop.update` (lines 141, 157): LONG breaches at
or below the stop, SHORT at or above it. -/
def ts_breach (st : TSState) (current_price : ℚ) : Bool :=
  match st.position_side with
  | PosSide.LONG => decide (current_price ≤ st.current_stop)
  | PosSide.SHORT => decide (st.current_stop ≤ current_price)

/-- `TrailingStop.update` (src/risk_management/trailing_stop.py lines 111-160):
no-op when there is no active state or the ATR is zero; otherwise mutate the
state and return the stop price when the current price breaches it. -/
def ts_update (cfg : TSConfig) (state : Option TSState) (current_price : ℚ)
    (klines : List Kline) : Option TSState × Option ℚ :=
  match state with
  | none => (none, none)
  | some st =>
    if st.is_active = false then (some st, none)
    else if ts_calculate_atr cfg.atr_period klines = 0 then (some st, none)
    else if ts_breach (ts_update_state st current_price
        (ts_calculate_atr cfg.atr_period klines * cfg.atr_multiplier)) current_price then
      (some (ts_update_state st current_price
          (ts_calculate_atr cfg.atr_period klines * cfg.atr_multiplier)),
        some (ts_update_state st current_price
          (ts_calculate_atr cfg.atr_period klines * cfg.atr_multiplier)).current_stop)
    else
      (some (ts_update_state st current_price
          (ts_calculate_atr cfg.atr_period klines * cfg.atr_multiplier)), none)

lemma ts_update_state_long_mono {st : TSState} (h : st.position_side = PosSide.LONG)
    (price dist : ℚ) : st.current_stop ≤ (ts_update_state st price dist).current_stop := by
  unfold ts_update_state
  simp only [h]
  split_ifs with h1 h2
  · exact le_of_lt h2
  · exact le_refl _
  · exact le_refl _

lemma ts_update_state_short_mono {st : TSState} (h : st.position_side = PosSide.SHORT)
    (hne : st.current_stop ≠ st.entry_price) (price dist : ℚ) :
    (ts_update_state st price dist).current_stop ≤ st.current_stop := by
  unfold ts_update_state
  simp only [h]
  split_ifs with h1 h2
  · rcases h2 with hentry | hlt
    · exact absurd hentry hne
    · exact le_of_lt hlt
  · exact le_refl _
  · exact le_refl _

lemma ts_update_state_frame (st : TSState) (price dist : ℚ) :
    (ts_update_state st price dist).position_side = st.position_side ∧
    (ts_update_state st price dist).entry_price = st.entry_price ∧
    (ts_update_state st price dist).is_active = st.is_active := by
  unfold ts_update_state
  cases h : st.position_side <;> simp only [h] <;> split_ifs <;>
    first
      | exact ⟨rfl, rfl, rfl⟩
      | exact ⟨h, rfl, rfl⟩

/-- C1 (amended).  One `update` call: for a Long position the stop never
decreases, with no exception; for a Short position the stop never increases on
any update at whose start the stop differs from the entry price — but whenever
the stop equals the entry price (the "not yet set" sentinel, whether left by an
activation without history or reproduced later by ratcheting exactly back to
the entry) the update may move it freely, not only on the very first update.
The side and entry price never change, and a returned breach price always
equals the post-update stop, so breach prices inherit the same law. -/
theorem C1_trailing_ratchet (cfg : TSConfig) (st : TSState) (price : ℚ)
    (klines : List Kline) (st' : TSState)
    (hst' : (ts_update cfg (some st) price klines).1 = some st') :
    (st.position_side = PosSide.LONG → st.current_stop ≤ st'.current_stop) ∧
    (st.position_side = PosSide.SHORT → st.current_stop ≠ st.entry_price →
      st'.current_stop ≤ st.current_stop) ∧
    st'.position_side = st.position_side ∧
    st'.entry_price = st.entry_price ∧
    (∀ b, (ts_update cfg (some st) price klines).2 = some b → b = st'.current_stop) := by
  by_cases hact : st.is_active = false
  · have hid : ts_update cfg (some st) price klines = (some st, none) := by
      simp only [ts_update]
      rw [if_pos hact]
    rw [hid] at hst'
    obtain rfl : st = st' := Option.some.inj hst'
    refine ⟨fun _ => le_refl _, fun _ _ => le_refl _, rfl, rfl, ?_⟩
    intro b hb
    rw [hid] at hb
    simp at hb
  · by_cases hatr : ts_calculate_atr cfg.atr_period klines = 0
    · have hid : ts_update cfg (some st) price klines = (some st, none) := by
        simp only [ts_update]
        rw [if_neg hact, if_pos hatr]
      rw [hid] at hst'
      obtain rfl : st = st' := Option.some.inj hst'
      refine ⟨fun _ => le_refl _, fun _ _ => le_refl _, rfl, rfl, ?_⟩
      intro b hb
      rw [hid] at hb
      simp at hb
    · have hmain : (ts_update cfg (some st) price klines).1 =
          some (ts_update_state st price
            (ts_calculate_atr cfg.atr_period klines * cfg.atr_multiplier)) := by
        simp only [ts_update]
        rw [if_neg hact, if_neg hatr]
        split <;> rfl
      have hst'' : st' = ts_update_state st price
          (ts_calculate_atr cfg.atr_period klines * cfg.atr_multiplier) := by
        rw [hmain] at hst'
        exact (Option.some.inj hst').symm
      subst hst''
      obtain ⟨hside, hentry, _⟩ := ts_update_state_frame st price
        (ts_calculate_atr cfg.atr_period klines * cfg.atr_multiplier)
      refine ⟨?_, ?_, hside, hentry, ?_⟩
      · intro h
        exact ts_update_state_long_mono h price _
      · intro h hne
        exact ts_update_state_short_mono h hne price _
      · intro b hb
        simp only [ts_update] at hb
        rw [if_neg hact, if_neg hatr] at hb
        split at hb
        · exact (Option.some.inj hb).symm
        · simp at hb

/-- Candle with explicit high/low/close, for concrete evaluations. -/
def mkK (t : Int) (h l c : ℚ) : Kline :=
  { open_time := t, close_time := t + 300000, open_ := c, high := h, low := l,
    close := c, volume := 1 }

/-- Witness state for C1: an active LONG position entered at 100 with the stop
at 96. -/
def c1WitnessState : TSState :=
  { is_active := true, highest_price := 100, lowest_price := 100,
    current_stop := 96, entry_price := 100, position_side := PosSide.LONG }

/-- Witness state for C1 (Short side): an active SHORT position entered at 100
with the stop already set at 110. -/
def c1WitnessStateShort : TSState :=
  { is_active := true, highest_price := 100, lowest_price := 100,
    current_stop := 110, entry_price := 100, position_side := PosSide.SHORT }

/-- Witness for C1: with ATR 2 and multiplier 2, a LONG update at price 110
ratchets the stop from 96 up to 106, and a SHORT update at price 95 ratchets
its stop from 110 down to 100; in both directions the theorem applies. -/
theorem C1_trailing_ratchet_witness :
    ((ts_update ⟨2, 1⟩ (some c1WitnessState) 110
        [flatK 0 100, mkK 300000 102 100 100]).1 =
      some ⟨true, 110, 100, 106, 100, PosSide.LONG⟩ ∧
      c1WitnessState.current_stop ≤ (106 : ℚ)) ∧
    ((ts_update ⟨1, 1⟩ (some c1WitnessStateShort) 95
        [flatK 0 100, mkK 300000 105 100 95]).1 =
      some ⟨true, 100, 95, 100, 100, PosSide.SHORT⟩ ∧
      (100 : ℚ) ≤ c1WitnessStateShort.current_stop) := by
  have h1 : (ts_update ⟨2, 1⟩ (some c1WitnessState) 110
      [flatK 0 100, mkK 300000 102 100 100]).1 =
      some ⟨true, 110, 100, 106, 100, PosSide.LONG⟩ := by
    simp [ts_update, ts_update_state, ts_breach, ts_calculate_atr, trPair,
      qmax, qabs, flatK, mkK, c1WitnessState]
    norm_num
  have h2 : (ts_update ⟨1, 1⟩ (some c1WitnessStateShort) 95
      [flatK 0 100, mkK 300000 105 100 95]).1 =
      some ⟨true, 100, 95, 100, 100, PosSide.SHORT⟩ := by
    simp [ts_update, ts_update_state, ts_breach, ts_calculate_atr, trPair,
      qmax, qabs, flatK, mkK, c1WitnessStateShort]
    norm_num
  refine ⟨⟨h1, ?_⟩, ⟨h2, ?_⟩⟩
  · exact (C1_trailing_ratchet ⟨2, 1⟩ c1WitnessState 110
      [flatK 0 100, mkK 300000 102 100 100]
      ⟨true, 110, 100, 106, 100, PosSide.LONG⟩ h1).1 rfl
  · exact (C1_trailing_ratchet ⟨1, 1⟩ c1WitnessStateShort 95
      [flatK 0 100, mkK 300000 105 100 95]
      ⟨true, 100, 95, 100, 100, PosSide.SHORT⟩ h2).2.1 rfl
      (by norm_num [c1WitnessStateShort])

/-- Counterexample for C1 as frozen.  SHORT entry at 100 with ATR 10 and
multiplier 1: activation sets the stop to 110; the first update (price 95,
ATR 5) tightens it to 100, which happens to equal the entry price; the second
update (price 90, ATR 25) then hits the `current_stop == entry_price` test and
LOOSENS the stop from 100 up to 115 — an increase of a Short stop on an update
that is not the very first one after activation. -/
theorem C1_counterexample :
    (ts_activate ⟨1, 1⟩ 100 PosSide.SHORT
        [flatK 0 100, mkK 300000 110 100 100]).current_stop = 110 ∧
    ((ts_update ⟨1, 1⟩
        (some (ts_activate ⟨1, 1⟩ 100 PosSide.SHORT
          [flatK 0 100, mkK 300000 110 100 100])) 95
        [flatK 0 100, mkK 300000 105 100 95]).1.map TSState.current_stop =
      some 100) ∧
    ((ts_update ⟨1, 1⟩
        ((ts_update ⟨1, 1⟩
          (some (ts_activate ⟨1, 1⟩ 100 PosSide.SHORT
            [flatK 0 100, mkK 300000 110 100 100])) 95
          [flatK 0 100, mkK 300000 105 100 95]).1) 90
        [flatK 0 100, mkK 300000 125 100 90]).1.map TSState.current_stop =
      some 115) ∧
    (100 : ℚ) < 115 := by
  refine ⟨?_, ?_, ?_, by norm_num⟩ <;>
    · simp [ts_update, ts_activate, ts_initial_stop, ts_update_state, ts_breach,
        ts_calculate_atr, trPair, qmax, qabs, flatK, mkK]
      norm_num

/-- Python built-in `round` to an integer: round half to even (banker's
rounding), used by `round(quantity / 0.001)` in the source. -/
def pyRound (x : ℚ) : ℤ :=
  if x - ⌊x⌋ < 1/2 then ⌊x⌋
  else if 1/2 < x - ⌊x⌋ then ⌊x⌋ + 1
  else if 2 ∣ ⌊x⌋ then ⌊x⌋ else ⌊x⌋ + 1

lemma pyRound_ge_one {x : ℚ} (hx : 1 ≤ x) : 1 ≤ pyRound x := by
  have hf : (1 : ℤ) ≤ ⌊x⌋ := Int.le_floor.mpr (by exact_mod_cast hx)
  unfold pyRound
  split_ifs <;> omega

/-- The account balance dataclass `Balance` (src/bybit_api/types.py). -/
structure Balance where
  available_balance : ℚ
  wallet_balance : ℚ
  used_margin : ℚ
  deriving DecidableEq

/-- `Settings.MIN_ORDER_SIZE` (src/config/settings.py line 121): 0.001 BTC. -/
def MIN_ORDER_SIZE : ℚ := 1/1000

/-- The available-capital fallback of `PositionManager.calculate_position_size`
(src/risk_management/position_manager.py lines 52-55): below 1 USDT of
available balance, use 95% of the wallet balance instead. -/
def available_capital (balance : Balance) : ℚ :=
  if balance.available_balance < 1 then balance.wallet_balance * (95/100)
  else balance.available_balance

/-- The unrounded quantity of `PositionManager.calculate_position_size`
(lines 58-63): `capital_to_invest × leverage / entry_price` with
`capital_to_invest = available_capital × (position_size_percent / 100)`. -/
def raw_quantity (psp : ℚ) (balance : Balance) (entry_price : ℚ)
    (leverage : ℤ) : ℚ :=
  available_capital balance * (psp / 100) * leverage / entry_price

/-- `PositionManager.calculate_position_size`
(src/risk_management/position_manager.py lines 23-79): 0 for a non-positive
entry price; 0 when the unrounded quantity is below `MIN_ORDER_SIZE`;
otherwise the quantity rounded to the nearest multiple of 0.001. -/
def calculate_position_size (psp : ℚ) (balance : Balance) (entry_price : ℚ)
    (leverage : ℤ) : ℚ :=
  if entry_price ≤ 0 then 0
  else if raw_quantity psp balance entry_price leverage < MIN_ORDER_SIZE then 0
  else pyRound (raw_quantity psp balance entry_price leverage / (1/1000)) * (1/1000)

/-- C4.  Position sizing: 0 exactly when the entry price is non-positive or
the computed quantity is below the venue minimum; otherwise the computed
quantity rounded to the 0.001 increment; every non-zero result is a multiple
of 0.001 and at least the minimum order size. -/
theorem C4_position_sizing (psp : ℚ) (balance : Balance) (entry_price : ℚ)
    (leverage : ℤ) :
    (entry_price ≤ 0 → calculate_position_size psp balance entry_price leverage = 0) ∧
    (raw_quantity psp balance entry_price leverage < MIN_ORDER_SIZE →
      0 < entry_price → calculate_position_size psp balance entry_price leverage = 0) ∧
    (0 < entry_price → MIN_ORDER_SIZE ≤ raw_quantity psp balance entry_price leverage →
      calculate_position_size psp balance entry_price leverage =
        pyRound (raw_quantity psp balance entry_price leverage / (1/1000)) * (1/1000)) ∧
    (calculate_position_size psp balance entry_price leverage ≠ 0 →
      (∃ k : ℤ, calculate_position_size psp balance entry_price leverage = k * (1/1000)) ∧
      MIN_ORDER_SIZE ≤ calculate_position_size psp balance entry_price leverage) := by
  refine ⟨?_, ?_, ?_, ?_⟩
  · intro h
    unfold calculate_position_size
    rw [if_pos h]
  · intro hq hp
    unfold calculate_position_size
    rw [if_neg (not_le.mpr hp), if_pos hq]
  · intro hp hq
    unfold calculate_position_size
    rw [if_neg (not_le.mpr hp), if_neg (not_lt.mpr hq)]
  · intro hne
    unfold calculate_position_size at hne ⊢
    by_cases hp : entry_price ≤ 0
    · rw [if_pos hp] at hne
      exact absurd rfl hne
    · rw [if_neg hp] at hne ⊢
      by_cases hq : raw_quantity psp balance entry_price leverage < MIN_ORDER_SIZE
      · rw [if_pos hq] at hne
        exact absurd rfl hne
      · rw [if_neg hq] at hne ⊢
        have hq1 : (1 : ℚ) ≤ raw_quantity psp balance entry_price leverage / (1/1000) :=
          (one_le_div (by norm_num : (0:ℚ) < 1/1000)).mpr
            (by simpa [MIN_ORDER_SIZE] using not_lt.mp hq)
        have hr : 1 ≤ pyRound (raw_quantity psp balance entry_price leverage / (1/1000)) :=
          pyRound_ge_one hq1
        refine ⟨⟨pyRound (raw_quantity psp balance entry_price leverage / (1/1000)), rfl⟩, ?_⟩
        have h1 : (1 : ℚ) * (1/1000) ≤
            (pyRound (raw_quantity psp balance entry_price leverage / (1/1000)) : ℚ) *
              (1/1000) :=
          mul_le_mul_of_nonneg_right (by exact_mod_cast hr) (by norm_num)
        simpa [MIN_ORDER_SIZE] using h1

/-- Witness for C4: with 1000 USDT, 10% sizing, leverage 1 and entry 50000,
the raw quantity 0.002 clears the minimum and the rounded result applies;
with entry price 0 the result is 0. -/
theorem C4_position_sizing_witness :
    ((0:ℚ) ≤ 0 ∧ calculate_position_size 10 ⟨1000, 1000, 0⟩ 0 1 = 0) ∧
    ((0:ℚ) < 50000 ∧
      MIN_ORDER_SIZE ≤ raw_quantity 10 ⟨1000, 1000, 0⟩ 50000 1 ∧
      calculate_position_size 10 ⟨1000, 1000, 0⟩ 50000 1 =
        pyRound (raw_quantity 10 ⟨1000, 1000, 0⟩ 50000 1 / (1/1000)) * (1/1000)) := by
  have hq : MIN_ORDER_SIZE ≤ raw_quantity 10 ⟨1000, 1000, 0⟩ 50000 1 := by
    norm_num [MIN_ORDER_SIZE, raw_quantity, available_capital]
  exact ⟨⟨le_refl 0, (C4_position_sizing 10 ⟨1000, 1000, 0⟩ 0 1).1 (le_refl 0)⟩,
    ⟨by norm_num, hq,
      (C4_position_sizing 10 ⟨1000, 1000, 0⟩ 50000 1).2.2.1 (by norm_num) hq⟩⟩

/-- The quantity normalization of `BybitClient.place_order`
(src/bybit_api/client.py lines 241-252): round to the 0.001 step, then raise
anything below 0.001 up to exactly 0.001. -/
def place_order_qty (qty : ℚ) : ℚ :=
  if (pyRound (qty / (1/1000)) : ℚ) * (1/1000) < 1/1000 then 1/1000
  else (pyRound (qty / (1/1000)) : ℚ) * (1/1000)

/-- C10.  The client submits the input quantity rounded to a multiple of
0.001, raised to exactly 0.001 whenever the rounded value falls below it: the
submitted quantity is never zero, always at least the venue minimum, and
always a 0.001 multiple. -/
theorem C10_order_quantity_clamping (qty : ℚ) (hq : 0 < qty) :
    place_order_qty qty =
      qmax (pyRound (qty / (1/1000)) * (1/1000)) (1/1000) ∧
    (1/1000 : ℚ) ≤ place_order_qty qty ∧
    (∃ k : ℤ, place_order_qty qty = k * (1/1000)) ∧
    place_order_qty qty ≠ 0 := by
  clear hq
  unfold place_order_qty qmax
  by_cases h : (pyRound (qty / (1/1000)) : ℚ) * (1/1000) < 1/1000
  · rw [if_pos h, if_pos (le_of_lt h)]
    refine ⟨rfl, le_refl _, ⟨1, by norm_num⟩, by norm_num⟩
  · rw [if_neg h]
    have hge : (1/1000 : ℚ) ≤ (pyRound (qty / (1/1000)) : ℚ) * (1/1000) := not_lt.mp h
    refine ⟨?_, hge, ⟨pyRound (qty / (1/1000)), rfl⟩, ?_⟩
    · by_cases h2 : (pyRound (qty / (1/1000)) : ℚ) * (1/1000) ≤ 1/1000
      · rw [if_pos h2]
        exact le_antisymm h2 hge
      · rw [if_neg h2]
    · intro hc
      rw [hc] at hge
      norm_num at hge

/-- Witness for C10: quantity 0.0005 rounds (half-to-even) to 0 and is bumped
to the venue minimum 0.001. -/
theorem C10_order_quantity_clamping_witness :
    (0 : ℚ) < 1/2000 ∧ (1/1000 : ℚ) ≤ place_order_qty (1/2000) ∧
    place_order_qty (1/2000) = 1/1000 := by
  refine ⟨by norm_num, (C10_order_quantity_clamping (1/2000) (by norm_num)).2.1, ?_⟩
  norm_num [place_order_qty, pyRound]

/-- The side of the position as reported by the venue (src/bybit_api/types.py,
`PositionSide`, ignoring the unused NONE member). -/
inductive RemoteSide where
  | LONG
  | SHORT
  deriving DecidableEq

/-- The slice of a remote `Position` that `BybitClient.close_position` reads:
its side and size. -/
structure RemotePosition where
  side : RemoteSide
  size : ℚ
  deriving DecidableEq

/-- Order side of `place_order` (src/bybit_api/types.py, `Side`). -/
inductive OrderSide where
  | BUY
  | SELL
  deriving DecidableEq

/-- A reduce-only market order as submitted by `close_position`. -/
structure CloseOrder where
  side : OrderSide
  qty : ℚ
  reduce_only : Bool
  deriving DecidableEq

/-- Outcome of the `get_position` fetch inside `close_position`: a successful
snapshot (possibly no open position), a timeout, or any other remote error. -/
inductive FetchOutcome where
  | ok (pos : Option RemotePosition)
  | timeoutErr
  | otherErr
  deriving DecidableEq

/-- Result of `close_position`: the boolean it returns and the reduce-only
order it submitted, if any. -/
structure CloseResult where
  success : Bool
  submitted : Option CloseOrder
  deriving DecidableEq

/-- `BybitClient.close_position` (src/bybit_api/client.py lines 380-414) as a
function of the fetch outcome.  A timeout returns success immediately; any
other fetch error is logged and execution continues with `position = None`,
which falls into the `if not position: return True` branch; a live position is
closed with an opposite reduce-only market order (submission itself modelled
as succeeding, the path under scrutiny being the fetch-error handling). -/
def close_order_side (s : RemoteSide) : OrderSide :=
  match s with
  | RemoteSide.LONG => OrderSide.SELL
  | RemoteSide.SHORT => OrderSide.BUY

def close_position (fetch : FetchOutcome) : CloseResult :=
  match fetch with
  | FetchOutcome.timeoutErr => { success := true, submitted := none }
  | FetchOutcome.otherErr => { success := true, submitted := none }
  | FetchOutcome.ok none => { success := true, submitted := none }
  | FetchOutcome.ok (some p) =>
    { success := true,
      submitted := some { side := close_order_side p.side, qty := p.size,
                          reduce_only := true } }

/-- C5 (amended).  Every position-fetch failure inside `close_position`, not
only a timeout, yields success without submitting an order: the timeout path
returns success directly, and any other fetch error falls through to the
no-position branch, which also returns success; no fetch error abandons the
close cycle. -/
theorem C5_close_error_handling :
    close_position FetchOutcome.timeoutErr = { success := true, submitted := none } ∧
    close_position FetchOutcome.otherErr = { success := true, submitted := none } ∧
    close_position (FetchOutcome.ok none) = { success := true, submitted := none } ∧
    (∀ p, close_position (FetchOutcome.ok (some p)) =
      { success := true,
        submitted := some { side := close_order_side p.side, qty := p.size,
                            reduce_only := true } }) :=
  ⟨rfl, rfl, rfl, fun _ => rfl⟩

/-- Counterexample for C5 as frozen: a non-timeout fetch error is handled
exactly like a timeout — `close_position` returns success without submitting
an order instead of abandoning the cycle. -/
theorem C5_counterexample :
    close_position FetchOutcome.otherErr = close_position FetchOutcome.timeoutErr ∧
    (close_position FetchOutcome.otherErr).success = true ∧
    (close_position FetchOutcome.otherErr).success ≠ false :=
  ⟨rfl, rfl, fun h => Bool.noConfusion h⟩

/-- Trading signals (src/strategies/base.py, enum `Signal`). -/
inductive Signal where
  | LONG
  | SHORT
  | NEUTRAL
  | CLOSE_LONG
  | CLOSE_SHORT
  deriving DecidableEq

/-- The dataclass `StrategyResult` (src/strategies/base.py lines 21-26). -/
structure StrategyResult where
  signal : Signal
  confidence : ℚ
  entry_price : ℚ
  deriving DecidableEq

/-- The (weight, value) pairs of the pandas exponentially weighted mean taken
over a REVERSED series: the entry nearest the end carries weight 1 and each
step towards the past multiplies the weight by `(1 - alpha)`; NaN entries
(`none`) contribute no pair but still advance the weight (pandas default
ignore_na=False weights by absolute position). -/
def ewmRevTerms (alpha : ℚ) : List (Option ℚ) → ℚ → List (ℚ × ℚ)
  | [], _ => []
  | none :: rest, w => ewmRevTerms alpha rest (w * (1 - alpha))
  | some v :: rest, w => (w, v) :: ewmRevTerms alpha rest (w * (1 - alpha))

/-- The pandas exponentially weighted mean
`xs.ewm(alpha=alpha, min_periods=min_periods).mean()` (defaults adjust=True,
ignore_na=False) evaluated at the last index of the series; `none` stands for
NaN.  With adjust=True the value at the last index is the weighted mean of the
valid entries with weights `(1-alpha)^distance_from_end`, NaN until
`min_periods` valid entries have been seen. -/
def ewmLast (alpha : ℚ) (min_periods : ℕ) (xs : List (Option ℚ)) : Option ℚ :=
  if (ewmRevTerms alpha xs.reverse 1).length < min_periods then none
  else
    some (((ewmRevTerms alpha xs.reverse 1).map (fun p => p.1 * p.2)).sum /
      ((ewmRevTerms alpha xs.reverse 1).map Prod.fst).sum)

/-- The full `ewm(...).mean()` series: the value at every index is the
`ewmLast` of the prefix of the series up to and including that index. -/
def ewmSeriesAux (alpha : ℚ) (min_periods : ℕ) (seen : List (Option ℚ)) :
    List (Option ℚ) → List (Option ℚ)
  | [] => []
  | x :: rest =>
    ewmLast alpha min_periods (seen ++ [x]) ::
      ewmSeriesAux alpha min_periods (seen ++ [x]) rest

def ewmSeries (alpha : ℚ) (min_periods : ℕ) (xs : List (Option ℚ)) : List (Option ℚ) :=
  ewmSeriesAux alpha min_periods [] xs

/-- The pandas_ta guard `length if length and length > 0 else default` applied
by `rsi` (default 14) and `rma`/`atr` (default 14). -/
def eff_length (len default : ℕ) : ℕ := if len = 0 then default else len

/-- `close.diff()` of pandas_ta `rsi`: NaN at index 0, then successive
differences. -/
def close_diffs (closes : List ℚ) : List (Option ℚ) :=
  none :: (closes.zip closes.tail).map (fun p => some (p.2 - p.1))

/-- pandas_ta `rsi` (used by `IFRStrategy._compute_rsi`,
src/strategies/ifr_rsi.py lines 57-70) at the last index: Wilder RMA
(`ewm(alpha=1/length, min_periods=length)`) of the clamped positive and
negative diff series, then `100 * pos_avg / (pos_avg + |neg_avg|)`; `none`
mirrors a NaN value (head of the series, or the 0/0 of an all-flat window). -/
def rsi_last (length : ℕ) (closes : List ℚ) : Option ℚ :=
  match
    ewmLast (1 / (eff_length length 14 : ℚ)) (eff_length length 14)
      ((close_diffs closes).map (Option.map (fun v => if v < 0 then 0 else v))),
    ewmLast (1 / (eff_length length 14 : ℚ)) (eff_length length 14)
      ((close_diffs closes).map (Option.map (fun v => if 0 < v then 0 else v))) with
  | some pa, some na =>
    if pa + qabs na = 0 then none else some (100 * pa / (pa + qabs na))
  | _, _ => none

/-- pandas_ta `true_range`: NaN at index 0, then
`max(|high-low|, |high-prev_close|, |prev_close-low|)` row-wise. -/
def true_range_series (klines : List Kline) : List (Option ℚ) :=
  none :: (klines.zip klines.tail).map (fun p =>
    some (qmax (qabs (p.2.high - p.2.low))
      (qmax (qabs (p.2.high - p.1.close)) (qabs (p.1.close - p.2.low)))))

/-- `IFRStrategy._compute_atr` (src/strategies/ifr_rsi.py lines 72-90): empty
when fewer than `atr_period + 1` candles, otherwise the pandas_ta `atr` series
(Wilder RMA of the true range). -/
def compute_atr (cfg : IFRParams) (klines : List Kline) : List (Option ℚ) :=
  if klines.length < cfg.atr_period + 1 then []
  else
    ewmSeries (1 / (eff_length cfg.atr_period 14 : ℚ)) (eff_length cfg.atr_period 14)
      (true_range_series klines)

/-- pandas `series.tail(n).mean()`: mean of the valid entries among the last
`n`, NaN (`none`) when there are none. -/
def tail_mean (n : ℕ) (xs : List (Option ℚ)) : Option ℚ :=
  if ((xs.drop (xs.length - n)).filterMap id).length = 0 then none
  else some (((xs.drop (xs.length - n)).filterMap id).sum /
    (((xs.drop (xs.length - n)).filterMap id).length : ℚ))

/-- `float(atr_series.iloc[-1])`: the last ATR value, `none` for NaN or an
empty series. -/
def current_atr (atr_series : List (Option ℚ)) : Option ℚ :=
  atr_series.getLast?.join

/-- The guard of the ATR volatility filter (src/strategies/ifr_rsi.py lines
125-128): a non-empty ATR series at least `atr_lookback_period` long (NaN
warm-up entries included, as `len(atr_series)` counts them) and both
multipliers away from their disabling sentinels 0.0 and 999.0. -/
def atr_gate_on (cfg : IFRParams) (atr_series : List (Option ℚ)) : Bool :=
  !atr_series.isEmpty &&
    decide (cfg.atr_lookback_period ≤ atr_series.length) &&
    decide (0 < cfg.atr_min_multiplier) &&
    decide (cfg.atr_max_multiplier < 999)

/-- The outlier test of the ATR filter (lines 130-151): current ATR outside
`[mean*min_multiplier, mean*max_multiplier]` where the mean is taken over the
last `atr_lookback_period` ATR values.  Comparisons against NaN are false in
Python, hence `false` when either side is `none`. -/
def atr_outlier (cfg : IFRParams) (atr_series : List (Option ℚ)) : Bool :=
  match tail_mean cfg.atr_lookback_period atr_series, current_atr atr_series with
  | some m, some a =>
    decide (a < m * cfg.atr_min_multiplier) || decide (m * cfg.atr_max_multiplier < a)
  | _, _ => false

/-- The oscillator-threshold classification (src/strategies/ifr_rsi.py lines
185-202).  A NaN oscillator (`none`) fails both comparisons and yields
Neutral, as in Python. -/
def classify_rsi (cfg : IFRParams) (r : Option ℚ) (current_price : ℚ) : StrategyResult :=
  match r with
  | none => { signal := Signal.NEUTRAL, confidence := 0, entry_price := current_price }
  | some v =>
    if v ≤ cfg.oversold_level then
      { signal := Signal.LONG, confidence := qmin 1 ((cfg.oversold_level - v) / 20),
        entry_price := current_price }
    else if cfg.overbought_level ≤ v then
      { signal := Signal.SHORT, confidence := qmin 1 ((v - cfg.overbought_level) / 20),
        entry_price := current_price }
    else { signal := Signal.NEUTRAL, confidence := 0, entry_price := current_price }

/-- The recurring `self.klines[-1].close if self.klines else 0.0`. -/
def last_close (klines : List Kline) : ℚ :=
  match klines.getLast? with
  | some k => k.close
  | none => 0

/-- `IFRStrategy.calculate_signal` (src/strategies/ifr_rsi.py lines 92-202);
the instance fields `last_rsi`/`last_atr` are passed in and returned (NaN and
Python `None` both rendered as `none`).  The `rsi.empty` early return
corresponds to an empty close list.  Inside the enabled gate branch `last_atr`
is set before the outlier test, so the outlier return carries it as well. -/
def calculate_signal (cfg : IFRParams) (last_rsi last_atr : Option ℚ)
    (klines : List Kline) : StrategyResult × Option ℚ × Option ℚ :=
  if klines.length < cfg.rsi_period + 2 then
    ({ signal := Signal.NEUTRAL, confidence := 0, entry_price := last_close klines },
     last_rsi, last_atr)
  else if (klines.map Kline.close).isEmpty then
    ({ signal := Signal.NEUTRAL, confidence := 0, entry_price := last_close klines },
     last_rsi, last_atr)
  else if atr_gate_on cfg (compute_atr cfg klines) then
    if atr_outlier cfg (compute_atr cfg klines) then
      ({ signal := Signal.NEUTRAL, confidence := 0, entry_price := last_close klines },
       rsi_last cfg.rsi_period (klines.map Kline.close),
       current_atr (compute_atr cfg klines))
    else
      (classify_rsi cfg (rsi_last cfg.rsi_period (klines.map Kline.close))
        (last_close klines),
       rsi_last cfg.rsi_period (klines.map Kline.close),
       current_atr (compute_atr cfg klines))
  else if (compute_atr cfg klines).isEmpty then
    (classify_rsi cfg (rsi_last cfg.rsi_period (klines.map Kline.close))
      (last_close klines),
     rsi_last cfg.rsi_period (klines.map Kline.close), none)
  else
    (classify_rsi cfg (rsi_last cfg.rsi_period (klines.map Kline.close))
      (last_close klines),
     rsi_last cfg.rsi_period (klines.map Kline.close),
     current_atr (compute_atr cfg klines))

/-- C7.  With fewer than `oscillator_period + 2` candles, `calculate_signal`
returns Neutral with confidence 0 and the last close (0 on an empty window) as
reference price, leaving the recorded oscillator and volatility values
untouched; being a total function, it raises nothing. -/
theorem C7_insufficient_history (cfg : IFRParams) (last_rsi last_atr : Option ℚ)
    (klines : List Kline) (h : klines.length < cfg.rsi_period + 2) :
    calculate_signal cfg last_rsi last_atr klines =
      ({ signal := Signal.NEUTRAL, confidence := 0, entry_price := last_close klines },
       last_rsi, last_atr) := by
  unfold calculate_signal
  rw [if_pos h]

/-- Witness for C7: the default configuration on an empty window yields
reference price 0, and on a single-candle window the candle's close. -/
theorem C7_insufficient_history_witness :
    (([] : List Kline).length < (14 : ℕ) + 2 ∧
      calculate_signal ⟨14, 30, 70, 14, 14, 20, 0, 999⟩ none none [] =
        ({ signal := Signal.NEUTRAL, confidence := 0, entry_price := 0 }, none, none)) ∧
    ([flatK 0 42].length < (14 : ℕ) + 2 ∧
      calculate_signal ⟨14, 30, 70, 14, 14, 20, 0, 999⟩ none none [flatK 0 42] =
        ({ signal := Signal.NEUTRAL, confidence := 0, entry_price := 42 }, none, none)) := by
  constructor
  · refine ⟨by norm_num, ?_⟩
    have h := C7_insufficient_history ⟨14, 30, 70, 14, 14, 20, 0, 999⟩ none none []
      (by norm_num)
    rw [h]
    simp [last_close]
  · refine ⟨by norm_num, ?_⟩
    have h := C7_insufficient_history ⟨14, 30, 70, 14, 14, 20, 0, 999⟩ none none
      [flatK 0 42] (by norm_num)
    rw [h]
    simp [last_close, flatK]

lemma atr_outlier_some (cfg : IFRParams) (s : List (Option ℚ))
    (h : atr_outlier cfg s = true) : ∃ a, current_atr s = some a := by
  unfold atr_outlier at h
  cases hm : tail_mean cfg.atr_lookback_period s with
  | none =>
    cases hc : current_atr s with
    | none => rw [hm, hc] at h; simp at h
    | some a => exact ⟨a, rfl⟩
  | some m =>
    cases hc : current_atr s with
    | none => rw [hm, hc] at h; simp at h
    | some a => exact ⟨a, rfl⟩

/-- C6.  With enough candles for the oscillator, an enabled volatility gate
(non-empty ATR series at least `volatility_lookback` long, both multipliers
non-default) and a current ATR outside the band forces Neutral with confidence
0 at the last close while the oscillator and current ATR are still recorded;
with the gate disabled or the ATR inside the band, the oscillator-threshold
classification applies instead. -/
theorem C6_volatility_gate (cfg : IFRParams) (last_rsi last_atr : Option ℚ)
    (klines : List Kline) (hlen : cfg.rsi_period + 2 ≤ klines.length) :
    (atr_gate_on cfg (compute_atr cfg klines) = true →
      atr_outlier cfg (compute_atr cfg klines) = true →
      calculate_signal cfg last_rsi last_atr klines =
        ({ signal := Signal.NEUTRAL, confidence := 0, entry_price := last_close klines },
         rsi_last cfg.rsi_period (klines.map Kline.close),
         current_atr (compute_atr cfg klines)) ∧
      (∃ a, current_atr (compute_atr cfg klines) = some a)) ∧
    (atr_gate_on cfg (compute_atr cfg klines) = true →
      atr_outlier cfg (compute_atr cfg klines) = false →
      (calculate_signal cfg last_rsi last_atr klines).1 =
        classify_rsi cfg (rsi_last cfg.rsi_period (klines.map Kline.close))
          (last_close klines)) ∧
    (atr_gate_on cfg (compute_atr cfg klines) = false →
      (calculate_signal cfg last_rsi last_atr klines).1 =
        classify_rsi cfg (rsi_last cfg.rsi_period (klines.map Kline.close))
          (last_close klines)) := by
  have hguard : ¬ klines.length < cfg.rsi_period + 2 := not_lt.mpr hlen
  have hne : ¬ ((klines.map Kline.close).isEmpty = true) := by
    cases klines with
    | nil => exact absurd hlen (by simp)
    | cons a l => simp
  refine ⟨?_, ?_, ?_⟩
  · intro hgate houtlier
    constructor
    · unfold calculate_signal
      rw [if_neg hguard, if_neg hne, if_pos hgate, if_pos houtlier]
    · exact atr_outlier_some cfg _ houtlier
  · intro hgate houtlier
    unfold calculate_signal
    rw [if_neg hguard, if_neg hne, if_pos hgate,
      if_neg (by rw [houtlier]; exact Bool.false_ne_true)]
  · intro hgate
    unfold calculate_signal
    rw [if_neg hguard, if_neg hne,
      if_neg (by rw [hgate]; exact Bool.false_ne_true)]
    split <;> rfl

/-- Witness configuration for C6: oscillator period 1, ATR period 1, lookback
2, gate multipliers 0.5 and 2 (both non-default). -/
def c6cfg : IFRParams := ⟨1, 30, 70, 14, 1, 2, 1/2, 2⟩

/-- Witness window for C6: two wide-range candles followed by a narrow one,
whose ATR 1 falls below half the mean 50.5 of the last two ATRs. -/
def c6klines : List Kline :=
  [mkK 0 10 10 10, mkK 300000 110 10 10, mkK 600000 110 10 10, mkK 900000 11 10 11]

/-- Witness for C6: on `c6klines` the gate is enabled, the current ATR is an
outlier, and the signal is forced to Neutral with confidence 0 at the last
close 11 while RSI 100 and ATR 1 are recorded. -/
theorem C6_volatility_gate_witness :
    c6cfg.rsi_period + 2 ≤ c6klines.length ∧
    atr_gate_on c6cfg (compute_atr c6cfg c6klines) = true ∧
    atr_outlier c6cfg (compute_atr c6cfg c6klines) = true ∧
    calculate_signal c6cfg none none c6klines =
      ({ signal := Signal.NEUTRAL, confidence := 0, entry_price := 11 },
       some 100, some 1) := by
  have hatr : compute_atr c6cfg c6klines = [none, some 100, some 100, some 1] := by
    simp [compute_atr, ewmSeries, ewmSeriesAux, ewmLast, ewmRevTerms,
      true_range_series, eff_length, qmax, qabs, c6cfg, c6klines, mkK]
    norm_num
  have hgate : atr_gate_on c6cfg (compute_atr c6cfg c6klines) = true := by
    rw [hatr]
    simp [atr_gate_on, c6cfg]
    norm_num
  have houtlier : atr_outlier c6cfg (compute_atr c6cfg c6klines) = true := by
    rw [hatr]
    simp [atr_outlier, tail_mean, current_atr, c6cfg]
    norm_num
  have hlen : c6cfg.rsi_period + 2 ≤ c6klines.length := by simp [c6cfg, c6klines]
  have hrsi : rsi_last c6cfg.rsi_period (c6klines.map Kline.close) = some 100 := by
    simp [rsi_last, close_diffs, ewmLast, ewmRevTerms, eff_length, qabs,
      c6cfg, c6klines, mkK]
    norm_num
  obtain ⟨heq, _⟩ := (C6_volatility_gate c6cfg none none c6klines hlen).1 hgate houtlier
  refine ⟨hlen, hgate, houtlier, ?_⟩
  rw [heq, hrsi, hatr]
  simp [current_atr, last_close, c6klines, mkK]

/-- The exit test on the trailing stop inside `_backtest`
(src/optimization/bayesian_opt.py lines 149-156).  Python's `if stop_price:`
is truthiness: None and 0.0 both fail it. -/
def bt_hit_stop (side : PosSide) (price : ℚ) (stop_price : Option ℚ) : Bool :=
  match stop_price with
  | none => false
  | some sp =>
    if sp = 0 then false
    else match side with
      | PosSide.LONG => decide (price ≤ sp)
      | PosSide.SHORT => decide (sp ≤ price)

/-- The strategy-exit test inside `_backtest` (lines 158-163): an opposing or
closing signal while positioned. -/
def bt_signal_close (side : PosSide) (sig : Signal) : Bool :=
  match side with
  | PosSide.LONG => decide (sig = Signal.CLOSE_LONG) || decide (sig = Signal.SHORT)
  | PosSide.SHORT => decide (sig = Signal.CLOSE_SHORT) || decide (sig = Signal.LONG)

/-- The per-candle state of `_backtest` (src/optimization/bayesian_opt.py
lines 122-137): the strategy's candle buffer and recorded indicator values,
the trailing-stop state, and the open-position bookkeeping. -/
structure BTState where
  buf : List Kline
  last_rsi : Option ℚ
  last_atr : Option ℚ
  ts_state : Option TSState
  position_side : Option PosSide
  entry_price : ℚ
  equity : ℚ
  trade_count : ℕ

/-- One iteration of the `_backtest` loop (src/optimization/bayesian_opt.py
lines 140-192): feed the candle to the strategy, compute the signal, check
stop/signal exits while positioned (exiting at the stop price on a stop hit,
else at the close), then consider a fresh entry if flat (possibly in the same
iteration that just closed). -/
def backtest_step (cfg : IFRParams) (tscfg : TSConfig) (st : BTState)
    (k : Kline) : BTState :=
  match
    calculate_signal cfg st.last_rsi st.last_atr
      (add_kline (get_max_klines cfg) st.buf k) with
  | (res, new_rsi, new_atr) =>
    match st.position_side with
    | none =>
      let st1 : BTState :=
        { st with
          buf := add_kline (get_max_klines cfg) st.buf k,
          last_rsi := new_rsi, last_atr := new_atr }
      if res.signal = Signal.LONG then
        { st1 with
          position_side := some PosSide.LONG, entry_price := k.close,
          trade_count := st1.trade_count + 1,
          ts_state := some (ts_activate tscfg k.close PosSide.LONG st1.buf) }
      else if res.signal = Signal.SHORT then
        { st1 with
          position_side := some PosSide.SHORT, entry_price := k.close,
          trade_count := st1.trade_count + 1,
          ts_state := some (ts_activate tscfg k.close PosSide.SHORT st1.buf) }
      else st1
    | some side =>
      match ts_update tscfg st.ts_state k.close
          (add_kline (get_max_klines cfg) st.buf k) with
      | (ts', stop_price) =>
        if bt_hit_stop side k.close stop_price || bt_signal_close side res.signal then
          let exit_p := if bt_hit_stop side k.close stop_price
            then stop_price.getD k.close else k.close
          let ret := match side with
            | PosSide.LONG => (exit_p - st.entry_price) / st.entry_price
            | PosSide.SHORT => (st.entry_price - exit_p) / st.entry_price
          let st1 : BTState :=
            { st with
              buf := add_kline (get_max_klines cfg) st.buf k,
              last_rsi := new_rsi, last_atr := new_atr,
              ts_state := none, position_side := none,
              equity := st.equity * (1 + ret) }
          if res.signal = Signal.LONG then
            { st1 with
              position_side := some PosSide.LONG, entry_price := k.close,
              trade_count := st1.trade_count + 1,
              ts_state := some (ts_activate tscfg k.close PosSide.LONG st1.buf) }
          else if res.signal = Signal.SHORT then
            { st1 with
              position_side := some PosSide.SHORT, entry_price := k.close,
              trade_count := st1.trade_count + 1,
              ts_state := some (ts_activate tscfg k.close PosSide.SHORT st1.buf) }
          else st1
        else
          { st with
            buf := add_kline (get_max_klines cfg) st.buf k,
            last_rsi := new_rsi, last_atr := new_atr, ts_state := ts' }

/-- `_backtest` (src/optimization/bayesian_opt.py lines 115-194): seed the
strategy with the first `get_max_klines()` candles, replay the remainder, and
return `(equity - 1.0, trade_count)`. -/
def backtest (cfg : IFRParams) (tscfg : TSConfig) (klines : List Kline) : ℚ × ℕ :=
  match
    (klines.drop (get_max_klines cfg)).foldl (backtest_step cfg tscfg)
      { buf := klines.take (get_max_klines cfg), last_rsi := none, last_atr := none,
        ts_state := none, position_side := none, entry_price := 0, equity := 1,
        trade_count := 0 } with
  | final => (final.equity - 1, final.trade_count)

/-- The search objective `objective` (src/optimization/bayesian_opt.py lines
213-223): the fixed penalty 1.0 below 5 trades, otherwise the negated total
return. -/
def objective (cfg : IFRParams) (tscfg : TSConfig) (klines : List Kline) : ℚ :=
  if (backtest cfg tscfg klines).2 < 5 then 1
  else -(backtest cfg tscfg klines).1

/-- C8.  The optimizer objective is the fixed penalty 1.0 whenever the
backtest yields fewer than 5 trades, regardless of the computed equity, and
the negated total return `-(equity - 1)` otherwise. -/
theorem C8_low_trade_penalty (cfg : IFRParams) (tscfg : TSConfig)
    (klines : List Kline) :
    ((backtest cfg tscfg klines).2 < 5 → objective cfg tscfg klines = 1) ∧
    (5 ≤ (backtest cfg tscfg klines).2 →
      objective cfg tscfg klines = -((backtest cfg tscfg klines).1)) := by
  constructor
  · intro h
    unfold objective
    rw [if_pos h]
  · intro h
    unfold objective
    rw [if_neg (not_lt.mpr h)]

/-- Witness for C8: an empty candle series produces 0 trades, and the
objective is the penalty 1. -/
theorem C8_low_trade_penalty_witness :
    (backtest ⟨14, 30, 70, 14, 14, 20, 0, 999⟩ ⟨2, 14⟩ []).2 < 5 ∧
    objective ⟨14, 30, 70, 14, 14, 20, 0, 999⟩ ⟨2, 14⟩ [] = 1 := by
  have h : (backtest ⟨14, 30, 70, 14, 14, 20, 0, 999⟩ ⟨2, 14⟩ []).2 < 5 := by
    simp [backtest]
  exact ⟨h, (C8_low_trade_penalty ⟨14, 30, 70, 14, 14, 20, 0, 999⟩ ⟨2, 14⟩ []).1 h⟩

/-- A JSON map of numeric parameters, as serialized by the optimizer and
reloaded by the trader.  Python 3 JSON round-trips ints and repr-formatted
floats exactly, so serialization is the identity on this model. -/
def ParamsMap : Type := List (String × ℚ)

/-- Python `dict.get(key, default)`. -/
def pget (m : ParamsMap) (key : String) (default : ℚ) : ℚ :=
  (m.lookup key).getD default

/-- Python `int(x)`: truncation toward zero. -/
def pyInt (x : ℚ) : ℤ := if x < 0 then -⌊-x⌋ else ⌊x⌋

/-- The `IFRStrategy.__init__` parameter extraction (src/strategies/ifr_rsi.py
lines 31-42), shared verbatim by the optimizer's `_backtest` instantiation and
the trader's `_load_strategy_from_params`; note the constructor defaults 0.0
and 999.0 for the multipliers (the dataclass defaults 0.5/2.0 are overridden
here). -/
def mkIFRParams (params : ParamsMap) : IFRParams :=
  { rsi_period := (pyInt (pget params "rsi_period" 14)).toNat,
    oversold_level := pget params "oversold_level" 30,
    overbought_level := pget params "overbought_level" 70,
    volatility_period := (pyInt (pget params "volatility_period" 14)).toNat,
    atr_period := (pyInt (pget params "atr_period" 14)).toNat,
    atr_lookback_period := (pyInt (pget params "atr_lookback_period" 20)).toNat,
    atr_min_multiplier := pget params "atr_min_multiplier" 0,
    atr_max_multiplier := pget params "atr_max_multiplier" 999 }

/-- The parameter document persisted by `run_optimization`
(src/optimization/bayesian_opt.py lines 246-264): the strategy and
trailing-stop parameter maps (symbol, timeframe and metrics omitted — they do
not feed reconstruction). -/
structure ParamDoc where
  strategy_name : String
  strategy : ParamsMap
  trailing_stop : ParamsMap

/-- The optimizer's own strategy instance, `strategy_cls(params=strategy_params)`
in `_backtest` (src/optimization/bayesian_opt.py line 122). -/
def optimizer_strategy_cfg (strategy_params : ParamsMap) : IFRParams :=
  mkIFRParams strategy_params

/-- The optimizer's own trailing stop, `TrailingStop(float(...), int(...))` in
`_backtest` (src/optimization/bayesian_opt.py lines 126-129). -/
def optimizer_ts_cfg (ts_params : ParamsMap) : TSConfig :=
  { atr_multiplier := pget ts_params "atr_multiplier" 2,
    atr_period := (pyInt (pget ts_params "atr_period" 14)).toNat }

/-- The trader's strategy instance rebuilt from the loaded document,
`_load_strategy_from_params` (src/execution/trader.py lines 45-60). -/
def trader_strategy_cfg (doc : ParamDoc) : IFRParams :=
  mkIFRParams doc.strategy

/-- The trader's trailing stop rebuilt from the loaded document
(src/execution/trader.py lines 271-275). -/
def trader_ts_cfg (doc : ParamDoc) : TSConfig :=
  { atr_multiplier := pget doc.trailing_stop "atr_multiplier" 2,
    atr_period := (pyInt (pget doc.trailing_stop "atr_period" 14)).toNat }

/-- C9.  Round-trip of the persisted parameters: the trader's reconstructed
strategy and trailing stop coincide with the optimizer's own instances, so
`calculate_signal`, trailing-stop activation and trailing-stop updates agree
on every candle sequence, price and state. -/
theorem C9_param_round_trip (doc : ParamDoc) :
    trader_strategy_cfg doc = optimizer_strategy_cfg doc.strategy ∧
    trader_ts_cfg doc = optimizer_ts_cfg doc.trailing_stop ∧
    (∀ last_rsi last_atr klines,
      calculate_signal (trader_strategy_cfg doc) last_rsi last_atr klines =
        calculate_signal (optimizer_strategy_cfg doc.strategy) last_rsi last_atr klines) ∧
    (∀ state price klines,
      ts_update (trader_ts_cfg doc) state price klines =
        ts_update (optimizer_ts_cfg doc.trailing_stop) state price klines) ∧
    (∀ entry side klines,
      ts_activate (trader_ts_cfg doc) entry side klines =
        ts_activate (optimizer_ts_cfg doc.trailing_stop) entry side klines) :=
  ⟨rfl, rfl, fun _ _ _ => rfl, fun _ _ _ => rfl, fun _ _ _ => rfl⟩

end BotBybit
